import Mathlib

/-!
# Shallow embedding of the library catalog store (`src/allahkma.py`, class `LibraryDatabase`)

The Python class keeps three sqlite tables (`books`, `borrowers`, `loans`) and mutates
them through `add_book`, `register_borrower`, `loan_book`, `return_book`, plus the
queries `search_books` and `get_overdue_loans`.  We embed the tables as Lean lists of
records and each method as a pure function from a `LibraryDatabase` state (together
with the ambient `datetime.now()` value, passed explicitly) to a `Bool × LibraryDatabase`
result, mirroring the Python `return True/False` plus the mutated connection.

Modelling decisions, each tied to a line of the source:

* Row ids: the three tables declare `INTEGER PRIMARY KEY AUTOINCREMENT`; sqlite hands
  out 1, 2, 3, … and never reuses a value.  We carry `nextBookId`/`nextBorrowerId`/
  `nextLoanId` counters starting at 1.
* Dates: the code stores every date as a `"%Y-%m-%d"` string and compares them as
  strings (`loans.due_date < ?` in `get_overdue_loans`).  Lexicographic order on
  zero-padded ISO date strings coincides with chronological order, so we model a
  calendar date as a `Nat` (a day number) and the sql comparison as `<` on `Nat`;
  `timedelta(days = n)` becomes `+ n`.
* `isbn TEXT UNIQUE` / `email TEXT UNIQUE`: sqlite raises `IntegrityError` on insert
  exactly when the inserted value is non-NULL and equal to a stored non-NULL value
  (NULLs are exempt from UNIQUE).  `add_book` / `register_borrower` catch that
  exception and return `False` without inserting.
* `FOREIGN KEY` clauses in `create_tables` are declared but sqlite does not enforce
  them unless `PRAGMA foreign_keys = ON` is issued, which the code never does; hence
  the embedded `loan_book` inserts a loan without checking the borrower, exactly as
  the Python does.
* `LIKE`: `search_books` builds the pattern `f"%{query}%"` and matches with sqlite's
  default `LIKE`, in which `%` matches any run of characters, `_` matches exactly one
  character, and ordinary characters compare ASCII-case-insensitively.  `likeMatch`
  below implements precisely that semantics; a NULL column value never matches.
* `cursor.execute("UPDATE … WHERE id = ?")` updates every row whose id matches, and
  `fetchone` after a `SELECT … WHERE id = ?` returns the first such row; we embed
  these as `List.map` with an id test and `List.find?`.
-/

structure Book where
  id : Nat
  title : String
  author : String
  isbn : Option String
  publicationYear : Option Int
  genre : Option String
  addedDate : Nat
  status : String
  deriving DecidableEq

structure Borrower where
  id : Nat
  name : String
  email : Option String
  phone : Option String
  registrationDate : Nat
  deriving DecidableEq

structure Loan where
  id : Nat
  bookId : Nat
  borrowerId : Nat
  loanDate : Nat
  dueDate : Nat
  returnDate : Option Nat
  deriving DecidableEq

structure LibraryDatabase where
  books : List Book
  borrowers : List Borrower
  loans : List Loan
  nextBookId : Nat
  nextBorrowerId : Nat
  nextLoanId : Nat
  deriving DecidableEq

/-- The state right after `create_tables` on a fresh file: three empty tables,
`AUTOINCREMENT` counters at 1. -/
def createTables : LibraryDatabase :=
  { books := [], borrowers := [], loans := [],
    nextBookId := 1, nextBorrowerId := 1, nextLoanId := 1 }

/-- The sqlite `UNIQUE` check on `books.isbn`: the insert raises `IntegrityError`
iff the inserted isbn is non-NULL and already present (NULL is exempt). -/
def isbnTaken (db : LibraryDatabase) (isbn : Option String) : Bool :=
  match isbn with
  | none => false
  | some s => db.books.any (fun b => b.isbn == some s)

/-- `LibraryDatabase.add_book` (src/allahkma.py lines 54-66). -/
def add_book (db : LibraryDatabase) (now : Nat) (title author : String)
    (isbn : Option String := none) (publication_year : Option Int := none)
    (genre : Option String := none) : Bool × LibraryDatabase :=
  if isbnTaken db isbn then
    (false, db)
  else
    (true, { db with
      books := db.books ++
        [{ id := db.nextBookId, title := title, author := author, isbn := isbn,
           publicationYear := publication_year, genre := genre,
           addedDate := now, status := "available" }],
      nextBookId := db.nextBookId + 1 })

/-- The sqlite `UNIQUE` check on `borrowers.email`. -/
def emailTaken (db : LibraryDatabase) (email : Option String) : Bool :=
  match email with
  | none => false
  | some s => db.borrowers.any (fun br => br.email == some s)

/-- `LibraryDatabase.register_borrower` (src/allahkma.py lines 84-96). -/
def register_borrower (db : LibraryDatabase) (now : Nat) (name : String)
    (email : Option String) (phone : Option String := none) :
    Bool × LibraryDatabase :=
  if emailTaken db email then
    (false, db)
  else
    (true, { db with
      borrowers := db.borrowers ++
        [{ id := db.nextBorrowerId, name := name, email := email, phone := phone,
           registrationDate := now }],
      nextBorrowerId := db.nextBorrowerId + 1 })

/-- Helper for the `%` wildcard: try the rest of the pattern (`f`) against
every suffix of the value, longest first. -/
def likeScan (f : List Char → Bool) : List Char → Bool
  | [] => f []
  | c :: s => f (c :: s) || likeScan f s

/-- sqlite's default `LIKE` on the pattern (first argument) and the value
(second argument): `%` matches any run of characters (via `likeScan`), `_`
matches exactly one character, any other pattern character matches
ASCII-case-insensitively (`Char.toLower` lower-cases exactly the ASCII
letters, as sqlite does). -/
def likeMatch : List Char → List Char → Bool
  | [], s => s.isEmpty
  | a :: p, s =>
    if a = '%' then likeScan (likeMatch p) s
    else
      match s with
      | [] => false
      | c :: s2 => (a = '_' || a.toLower = c.toLower) && likeMatch p s2

/-- `column LIKE pattern` on a nullable column: a NULL value never matches. -/
def likeField (pattern : String) (field : Option String) : Bool :=
  match field with
  | none => false
  | some s => likeMatch pattern.data s.data

/-- `LibraryDatabase.search_books` (src/allahkma.py lines 68-82): dispatch on
`search_by`, filter the table with `LIKE '%query%'`, unknown field gives `[]`. -/
def search_books (db : LibraryDatabase) (query : String)
    (search_by : String := "title") : List Book :=
  let search_query : String := "%" ++ query ++ "%"
  if search_by = "title" then
    db.books.filter (fun b => likeField search_query (some b.title))
  else if search_by = "author" then
    db.books.filter (fun b => likeField search_query (some b.author))
  else if search_by = "isbn" then
    db.books.filter (fun b => likeField search_query b.isbn)
  else if search_by = "genre" then
    db.books.filter (fun b => likeField search_query b.genre)
  else
    []

/-- `LibraryDatabase.loan_book` (src/allahkma.py lines 98-120): look the book up
by id; if absent or not `'available'` return `False` with no change; otherwise
flip its status to `'loaned'` and insert a loan row.  The borrower id is not
checked (sqlite's declared FOREIGN KEY is not enforced). -/
def loan_book (db : LibraryDatabase) (now : Nat) (book_id borrower_id : Nat)
    (loan_period_days : Nat := 14) : Bool × LibraryDatabase :=
  match db.books.find? (fun b => b.id == book_id) with
  | none => (false, db)
  | some b =>
    if b.status ≠ "available" then (false, db)
    else
      (true, { db with
        books := db.books.map (fun x =>
          if x.id == book_id then { x with status := "loaned" } else x),
        loans := db.loans ++
          [{ id := db.nextLoanId, bookId := book_id, borrowerId := borrower_id,
             loanDate := now, dueDate := now + loan_period_days,
             returnDate := none }],
        nextLoanId := db.nextLoanId + 1 })

/-- `LibraryDatabase.return_book` (src/allahkma.py lines 122-140): look the loan
up by id; if absent return `False`; otherwise stamp `return_date` on it and set
its book's status back to `'available'`.  Whether the loan was already returned
is not checked. -/
def return_book (db : LibraryDatabase) (now : Nat) (loan_id : Nat) :
    Bool × LibraryDatabase :=
  match db.loans.find? (fun l => l.id == loan_id) with
  | none => (false, db)
  | some l =>
    (true, { db with
      loans := db.loans.map (fun x =>
        if x.id == loan_id then { x with returnDate := some now } else x),
      books := db.books.map (fun b =>
        if b.id == l.bookId then { b with status := "available" } else b) })

/-- `LibraryDatabase.get_overdue_loans` (src/allahkma.py lines 142-153): inner
join of `loans` with `books` and `borrowers` on the two ids (the ids are primary
keys, so each join key matches at most one row), keeping rows with
`due_date < today AND return_date IS NULL`. -/
def get_overdue_loans (db : LibraryDatabase) (today : Nat) :
    List (Nat × String × String × Nat) :=
  db.loans.filterMap (fun l =>
    match db.books.find? (fun b => b.id == l.bookId),
          db.borrowers.find? (fun br => br.id == l.borrowerId) with
    | some b, some br =>
      if l.dueDate < today && l.returnDate.isNone then
        some (l.id, b.title, br.name, l.dueDate)
      else none
    | _, _ => none)

/-- One store operation, for stating "after every sequence of operations"
invariants; each constructor carries the ambient `datetime.now()` date. -/
inductive Op where
  | addBook (now : Nat) (title author : String) (isbn : Option String)
      (year : Option Int) (genre : Option String)
  | registerBorrower (now : Nat) (name : String) (email : Option String)
      (phone : Option String)
  | loanBook (now : Nat) (bookId borrowerId periodDays : Nat)
  | returnBook (now : Nat) (loanId : Nat)
  deriving DecidableEq

/-- Apply one operation, keeping only the state (the Python caller may ignore
the returned `True`/`False`). -/
def applyOp (db : LibraryDatabase) : Op → LibraryDatabase
  | Op.addBook now t a i y g => (add_book db now t a i y g).2
  | Op.registerBorrower now n e p => (register_borrower db now n e p).2
  | Op.loanBook now bid brid d => (loan_book db now bid brid d).2
  | Op.returnBook now lid => (return_book db now lid).2

/-- Run a sequence of operations from the freshly created store. -/
def runOps (ops : List Op) : LibraryDatabase :=
  ops.foldl applyOp createTables

/-! ## Invariants and spec-side definitions -/

/-- The spec's book-status invariant: a book is `'loaned'` exactly when some
open (return-date-absent) loan references it. -/
def bookStatusInv (db : LibraryDatabase) : Prop :=
  ∀ b ∈ db.books,
    (b.status = "loaned" ↔ ∃ l ∈ db.loans, l.bookId = b.id ∧ l.returnDate = none)

instance (db : LibraryDatabase) : Decidable (bookStatusInv db) :=
  inferInstanceAs (Decidable (∀ b ∈ db.books,
    (b.status = "loaned" ↔ ∃ l ∈ db.loans, l.bookId = b.id ∧ l.returnDate = none)))

/-- The spec's referential constraint: every loan's book id and borrower id
reference existing records. -/
def refIntegrity (db : LibraryDatabase) : Prop :=
  ∀ l ∈ db.loans,
    (∃ b ∈ db.books, b.id = l.bookId) ∧ (∃ br ∈ db.borrowers, br.id = l.borrowerId)

instance (db : LibraryDatabase) : Decidable (refIntegrity db) :=
  inferInstanceAs (Decidable (∀ l ∈ db.loans,
    (∃ b ∈ db.books, b.id = l.bookId) ∧ (∃ br ∈ db.borrowers, br.id = l.borrowerId)))

/-- A store state is well formed when: book statuses agree with open loans, each
book has at most one open loan, ids are keys (pairwise distinct), loans
reference existing books, and all ids are below the autoincrement counters. -/
structure StoreInv (db : LibraryDatabase) : Prop where
  statusIff : bookStatusInv db
  oneOpen : ∀ l1 ∈ db.loans, ∀ l2 ∈ db.loans,
    l1.returnDate = none → l2.returnDate = none → l1.bookId = l2.bookId → l1 = l2
  bookIds : ∀ b1 ∈ db.books, ∀ b2 ∈ db.books, b1.id = b2.id → b1 = b2
  loanIds : ∀ l1 ∈ db.loans, ∀ l2 ∈ db.loans, l1.id = l2.id → l1 = l2
  loansRef : ∀ l ∈ db.loans, ∃ b ∈ db.books, b.id = l.bookId
  bookIdLt : ∀ b ∈ db.books, b.id < db.nextBookId
  loanIdLt : ∀ l ∈ db.loans, l.id < db.nextLoanId

/-- An operation is a safe use of the store when, if it is a return, the
targeted loan is still open (the code itself never checks this). -/
def okOp (db : LibraryDatabase) : Op → Prop
  | Op.returnBook _ lid => ∀ l ∈ db.loans, l.id = lid → l.returnDate = none
  | _ => True

instance instDecOkOp (db : LibraryDatabase) (op : Op) : Decidable (okOp db op) :=
  match op with
  | Op.addBook .. => isTrue trivial
  | Op.registerBorrower .. => isTrue trivial
  | Op.loanBook .. => isTrue trivial
  | Op.returnBook _ lid =>
    inferInstanceAs (Decidable (∀ l ∈ db.loans, l.id = lid → l.returnDate = none))

/-- Every step of the sequence, run from `db`, is a safe use of the store. -/
def goodFrom (db : LibraryDatabase) : List Op → Prop
  | [] => True
  | op :: ops => okOp db op ∧ goodFrom (applyOp db op) ops

instance instDecGoodFrom (db : LibraryDatabase) (ops : List Op) :
    Decidable (goodFrom db ops) :=
  match ops with
  | [] => isTrue trivial
  | op :: rest =>
    have _ : Decidable (goodFrom (applyOp db op) rest) :=
      instDecGoodFrom (applyOp db op) rest
    inferInstanceAs (Decidable (okOp db op ∧ goodFrom (applyOp db op) rest))

/-- Modelled from the spec's words for `searchBooks`: `q` occurs in `s` as a
case-insensitive substring. -/
def containsCI (q s : String) : Prop :=
  (q.data.map Char.toLower) <:+: (s.data.map Char.toLower)

instance (q s : String) : Decidable (containsCI q s) :=
  List.decidableInfix _ _

/-- Modelled from the spec's words for `searchBooks`: the book's chosen field
contains the query as a case-insensitive substring; a field that is absent
contains nothing; an unknown field selector matches nothing. -/
def specMatches (query field : String) (b : Book) : Bool :=
  if field = "title" then decide (containsCI query b.title)
  else if field = "author" then decide (containsCI query b.author)
  else if field = "isbn" then
    match b.isbn with
    | some s => decide (containsCI query s)
    | none => false
  else if field = "genre" then
    match b.genre with
    | some s => decide (containsCI query s)
    | none => false
  else false

/-! ## Helper lemmas -/

theorem find?_eq_some_of_unique {α : Type} (p : α → Bool) (l : List α) (a : α)
    (ha : a ∈ l) (hpa : p a = true)
    (huniq : ∀ x ∈ l, p x = true → x = a) :
    l.find? p = some a := by
  cases hf : l.find? p with
  | none => exact absurd hpa (by simpa using List.find?_eq_none.mp hf a ha)
  | some b =>
    have hb := List.mem_of_find?_eq_some hf
    have hpb := List.find?_some hf
    rw [huniq b hb hpb]

/-! ## C7: duplicate ISBN -/

/-- C7: `add_book` with an isbn equal to an already-stored book's isbn returns
`False` and leaves the store (in particular the books table) unchanged. -/
theorem add_book_duplicate_isbn (db : LibraryDatabase) (now : Nat)
    (title author s : String) (year : Option Int) (genre : Option String)
    (h : ∃ b ∈ db.books, b.isbn = some s) :
    add_book db now title author (some s) year genre = (false, db) := by
  have htaken : isbnTaken db (some s) = true := by
    obtain ⟨b, hb, hbs⟩ := h
    simp only [isbnTaken, List.any_eq_true]
    exact ⟨b, hb, by simp [hbs]⟩
  simp [add_book, htaken]

/-- C7 witness: adding "Dune" twice with the same isbn: the second call fails
and changes nothing. -/
theorem add_book_duplicate_isbn_witness :
    add_book (add_book createTables 0 "Dune" "Herbert" (some "ISBN1") none none).2
        1 "Dune2" "H2" (some "ISBN1") none none
      = (false, (add_book createTables 0 "Dune" "Herbert" (some "ISBN1") none none).2) :=
  add_book_duplicate_isbn _ 1 "Dune2" "H2" "ISBN1" none none (by decide)

/-! ## C8: duplicate email -/

/-- C8: `register_borrower` with an email equal to an already-registered
borrower's email returns `False` and leaves the store unchanged. -/
theorem register_borrower_duplicate_email (db : LibraryDatabase) (now : Nat)
    (name e : String) (phone : Option String)
    (h : ∃ br ∈ db.borrowers, br.email = some e) :
    register_borrower db now name (some e) phone = (false, db) := by
  have htaken : emailTaken db (some e) = true := by
    obtain ⟨br, hbr, hbe⟩ := h
    simp only [emailTaken, List.any_eq_true]
    exact ⟨br, hbr, by simp [hbe]⟩
  simp [register_borrower, htaken]

/-- C8 witness: register Ana, then Bob with Ana's email: the second call fails
and the borrower count stays 1. -/
theorem register_borrower_duplicate_email_witness :
    register_borrower (register_borrower createTables 0 "Ana" (some "ana@x.com") none).2
        0 "Bob" (some "ana@x.com") none
      = (false, (register_borrower createTables 0 "Ana" (some "ana@x.com") none).2) ∧
    (register_borrower createTables 0 "Ana" (some "ana@x.com") none).2.borrowers.length = 1 :=
  ⟨register_borrower_duplicate_email _ 0 "Bob" "ana@x.com" none (by decide), by decide⟩

/-! ## C10: absent emails are exempt from uniqueness -/

/-- C10: registering with an absent email always succeeds, and two successive
such registrations both succeed and both create a record. -/
theorem register_borrower_none_email (db : LibraryDatabase)
    (now1 now2 : Nat) (n1 n2 : String) (p1 p2 : Option String) :
    (register_borrower db now1 n1 none p1).1 = true ∧
    (register_borrower db now1 n1 none p1).2.borrowers.length
      = db.borrowers.length + 1 ∧
    (register_borrower (register_borrower db now1 n1 none p1).2 now2 n2 none p2).1
      = true ∧
    (register_borrower (register_borrower db now1 n1 none p1).2 now2 n2 none p2).2.borrowers.length
      = db.borrowers.length + 2 := by
  simp [register_borrower, emailTaken]

/-! ## C2: loaning an absent or unavailable book -/

/-- C2: if no book record with the given id has status `'available'` (because
the id is absent or the book is in another status), `loan_book` returns `False`
and the whole store is unchanged. -/
theorem loan_book_unavailable_noop (db : LibraryDatabase)
    (now bid brid p : Nat)
    (h : ∀ b ∈ db.books, b.id = bid → b.status ≠ "available") :
    loan_book db now bid brid p = (false, db) := by
  unfold loan_book
  cases hfind : db.books.find? (fun b => b.id == bid) with
  | none => rfl
  | some b =>
    have hmem := List.mem_of_find?_eq_some hfind
    have hpred := List.find?_some hfind
    have hne : b.status ≠ "available" := h b hmem (by simpa using hpred)
    simp [hne]

/-- C2 witness: loaning an already-loaned book (and a nonexistent book id)
fails and changes nothing. -/
theorem loan_book_unavailable_noop_witness :
    loan_book (runOps [Op.addBook 0 "T" "A" none none none, Op.loanBook 0 1 1 14])
        2 1 1 14
      = (false, runOps [Op.addBook 0 "T" "A" none none none, Op.loanBook 0 1 1 14]) ∧
    loan_book (runOps [Op.addBook 0 "T" "A" none none none, Op.loanBook 0 1 1 14])
        2 9 1 14
      = (false, runOps [Op.addBook 0 "T" "A" none none none, Op.loanBook 0 1 1 14]) :=
  ⟨loan_book_unavailable_noop _ 2 1 1 14 (by decide),
   loan_book_unavailable_noop _ 2 9 1 14 (by decide)⟩

/-! ## C3: successful loan -/

/-- C3: loaning an available book succeeds: exactly one loan is appended, with
`loanDate = now`, `dueDate = now + periodDays`, fresh id, and no return date;
the book's status is flipped to `'loaned'`; borrowers are untouched.  (Both
effects are parts of the same returned state, so they happen together.) -/
theorem loan_book_success (db : LibraryDatabase) (now bid brid p : Nat)
    (b : Book) (hb : b ∈ db.books) (hid : b.id = bid)
    (hst : b.status = "available")
    (huniq : ∀ b1 ∈ db.books, ∀ b2 ∈ db.books, b1.id = b2.id → b1 = b2) :
    (loan_book db now bid brid p).1 = true ∧
    (loan_book db now bid brid p).2.loans = db.loans ++
      [{ id := db.nextLoanId, bookId := bid, borrowerId := brid,
         loanDate := now, dueDate := now + p, returnDate := none }] ∧
    (loan_book db now bid brid p).2.books = db.books.map (fun x =>
      if x.id == bid then { x with status := "loaned" } else x) ∧
    (loan_book db now bid brid p).2.borrowers = db.borrowers := by
  have hfind : db.books.find? (fun x => x.id == bid) = some b := by
    apply find?_eq_some_of_unique _ _ b hb (by simp [hid])
    intro x hx hpx
    have hx2 : x.id = bid := by simpa using hpx
    exact huniq x hx b hb (hx2.trans hid.symm)
  simp [loan_book, hfind, hst]

/-- C3 witness: loaning book 1 from a one-available-book store with period 14
creates the expected loan and flips the status. -/
theorem loan_book_success_witness :
    (loan_book (runOps [Op.addBook 0 "T" "A" none none none]) 3 1 1 14).1 = true ∧
    (loan_book (runOps [Op.addBook 0 "T" "A" none none none]) 3 1 1 14).2.loans
      = (runOps [Op.addBook 0 "T" "A" none none none]).loans ++
        [{ id := 1, bookId := 1, borrowerId := 1,
           loanDate := 3, dueDate := 3 + 14, returnDate := none }] ∧
    (loan_book (runOps [Op.addBook 0 "T" "A" none none none]) 3 1 1 14).2.books
      = (runOps [Op.addBook 0 "T" "A" none none none]).books.map (fun x =>
          if x.id == 1 then { x with status := "loaned" } else x) ∧
    (loan_book (runOps [Op.addBook 0 "T" "A" none none none]) 3 1 1 14).2.borrowers
      = (runOps [Op.addBook 0 "T" "A" none none none]).borrowers :=
  loan_book_success (runOps [Op.addBook 0 "T" "A" none none none]) 3 1 1 14
    { id := 1, title := "T", author := "A", isbn := none,
      publicationYear := none, genre := none, addedDate := 0,
      status := "available" }
    (by decide) (by decide) (by decide) (by decide)

/-! ## C4: returning a loan -/

/-- C4: `return_book` fails exactly when no loan record has the given id
(whether the loan was already returned plays no role), and a failed call leaves
the store unchanged; when a loan with the id exists (ids being keys), the call
succeeds, the loan now carries `returnDate = now`, and every book record with
that loan's book id is back to `'available'`. -/
theorem return_book_spec (db : LibraryDatabase) (now lid : Nat) :
    ((return_book db now lid).1 = false ↔ ∀ l ∈ db.loans, l.id ≠ lid) ∧
    ((return_book db now lid).1 = false → (return_book db now lid).2 = db) ∧
    (∀ l ∈ db.loans, l.id = lid →
      (∀ l1 ∈ db.loans, ∀ l2 ∈ db.loans, l1.id = l2.id → l1 = l2) →
      (return_book db now lid).1 = true ∧
      (∃ l2 ∈ (return_book db now lid).2.loans,
        l2.id = lid ∧ l2.returnDate = some now) ∧
      (∀ b ∈ (return_book db now lid).2.books,
        b.id = l.bookId → b.status = "available")) := by
  refine ⟨?_, ?_, ?_⟩
  · cases hfind : db.loans.find? (fun l => l.id == lid) with
    | none =>
      simp only [return_book, hfind]
      simpa using fun l hl => by simpa using List.find?_eq_none.mp hfind l hl
    | some l =>
      have hmem := List.mem_of_find?_eq_some hfind
      have hpred := List.find?_some hfind
      have hlid : l.id = lid := by simpa using hpred
      simp only [return_book, hfind]
      constructor
      · intro h; exact absurd h (by simp)
      · intro h; exact absurd hlid (h l hmem)
  · cases hfind : db.loans.find? (fun l => l.id == lid) with
    | none => intro _; simp [return_book, hfind]
    | some l => simp [return_book, hfind]
  · intro l hl hlid huniq
    have hfind : db.loans.find? (fun x => x.id == lid) = some l := by
      apply find?_eq_some_of_unique _ _ l hl (by simp [hlid])
      intro x hx hpx
      exact huniq x hx l hl (by simp at hpx; rw [hpx, hlid])
    refine ⟨by simp [return_book, hfind], ?_, ?_⟩
    · refine ⟨{ l with returnDate := some now }, ?_, by simp [hlid], rfl⟩
      simp only [return_book, hfind]
      exact List.mem_map.mpr ⟨l, hl, by simp [hlid]⟩
    · intro b hb hbid
      simp only [return_book, hfind] at hb
      obtain ⟨x, hx, hfx⟩ := List.mem_map.mp hb
      by_cases hxid : x.id = l.bookId
      · rw [← hfx]; simp [hxid]
      · rw [← hfx] at hbid ⊢
        simp only [hxid, beq_iff_eq, if_neg hxid] at hbid ⊢
        exact absurd hbid hxid

/-- C4 witness: in a store with one open loan (id 1) on book 1, returning
loan 1 succeeds, stamps `returnDate`, and makes book 1 available again; the
failure equivalence instantiated at the same store shows the call did not
fail. -/
theorem return_book_spec_witness :
    ((return_book (runOps [Op.addBook 0 "T" "A" none none none, Op.loanBook 0 1 1 14]) 9 1).1 = true ∧
     (∃ l2 ∈ (return_book (runOps [Op.addBook 0 "T" "A" none none none, Op.loanBook 0 1 1 14]) 9 1).2.loans,
        l2.id = 1 ∧ l2.returnDate = some 9) ∧
     (∀ b ∈ (return_book (runOps [Op.addBook 0 "T" "A" none none none, Op.loanBook 0 1 1 14]) 9 1).2.books,
        b.id = 1 → b.status = "available")) ∧
    (return_book (runOps [Op.addBook 0 "T" "A" none none none, Op.loanBook 0 1 1 14]) 9 2).1 = false := by
  constructor
  · have h := (return_book_spec
      (runOps [Op.addBook 0 "T" "A" none none none, Op.loanBook 0 1 1 14]) 9 1).2.2
      { id := 1, bookId := 1, borrowerId := 1, loanDate := 0, dueDate := 14,
        returnDate := none }
      (by decide) (by decide) (by decide)
    exact ⟨h.1, h.2.1, h.2.2⟩
  · exact (return_book_spec
      (runOps [Op.addBook 0 "T" "A" none none none, Op.loanBook 0 1 1 14]) 9 2).1.mpr
      (by decide)

/-! ## C1: the status invariant and double returns -/

/-- C1 counterexample: loan book 1 (loan 1), return it, loan it again (loan 2),
then return loan 1 a second time.  `return_book` only checks that the loan id
exists, so the second return flips book 1 back to `'available'` while loan 2 is
still open: the claimed invariant fails after this operation sequence. -/
theorem bookStatusInv_fails_on_double_return :
    ¬ bookStatusInv (runOps
      [Op.addBook 0 "T" "A" none none none, Op.loanBook 0 1 1 14,
       Op.returnBook 1 1, Op.loanBook 2 1 1 14, Op.returnBook 3 1]) := by
  decide

/-! ## C6: referential integrity -/

/-- C6: the schema declares `FOREIGN KEY (borrower_id) REFERENCES borrowers (id)`,
but sqlite does not enforce it and `loan_book` never checks the borrower: from a
fresh store with one book and no borrowers, `loan_book 1 7` succeeds and leaves
a loan whose borrower id 7 references no record. -/
theorem loan_book_breaks_refIntegrity :
    (loan_book (runOps [Op.addBook 0 "T" "A" none none none]) 0 1 7 14).1 = true ∧
    (loan_book (runOps [Op.addBook 0 "T" "A" none none none]) 0 1 7 14).2.loans ≠ [] ∧
    ¬ refIntegrity (loan_book (runOps [Op.addBook 0 "T" "A" none none none]) 0 1 7 14).2 := by
  refine ⟨by decide, by decide, by decide⟩

/-! ## C5: overdue loans -/

/-- C5 counterexample: the overdue query inner-joins `borrowers`, so an open
loan that is past due but references a nonexistent borrower (which `loan_book`
permits) is silently dropped: the result is empty even though a loan with
`dueDate < 20` and no return date exists. -/
theorem get_overdue_loans_misses_orphan_loan :
    (∃ l ∈ (runOps [Op.addBook 0 "T" "A" none none none, Op.loanBook 0 1 7 14]).loans,
      l.dueDate < 20 ∧ l.returnDate = none) ∧
    get_overdue_loans (runOps [Op.addBook 0 "T" "A" none none none, Op.loanBook 0 1 7 14]) 20
      = [] := by
  refine ⟨by decide, by decide⟩

/-- C5 amended: for a loan whose id is a key of the loans table, the overdue
report as of `today` carries an entry with that loan's id iff the loan is past
due (`dueDate < today`, strictly), still open, and its book id AND borrower id
both reference existing records. -/
theorem get_overdue_loans_spec (db : LibraryDatabase) (today : Nat) (l : Loan)
    (hl : l ∈ db.loans) (huniq : ∀ x ∈ db.loans, x.id = l.id → x = l) :
    (∃ e ∈ get_overdue_loans db today, e.1 = l.id) ↔
      (l.dueDate < today ∧ l.returnDate = none ∧
       (∃ b ∈ db.books, b.id = l.bookId) ∧
       (∃ br ∈ db.borrowers, br.id = l.borrowerId)) := by
  constructor
  · rintro ⟨e, he, heid⟩
    obtain ⟨x, hx, hfx⟩ := List.mem_filterMap.mp he
    cases hb : db.books.find? (fun b => b.id == x.bookId) with
    | none => simp [hb] at hfx
    | some b =>
      cases hbr : db.borrowers.find? (fun br => br.id == x.borrowerId) with
      | none => simp [hb, hbr] at hfx
      | some br =>
        simp only [hb, hbr] at hfx
        by_cases hcond : (decide (x.dueDate < today) && x.returnDate.isNone) = true
        · rw [if_pos hcond] at hfx
          have he2 : e = (x.id, b.title, br.name, x.dueDate) :=
            (Option.some_inj.mp hfx).symm
          have hxid : x.id = l.id := by rw [he2] at heid; exact heid
          have hxl : x = l := huniq x hx hxid
          subst hxl
          obtain ⟨hdue, hopen⟩ : x.dueDate < today ∧ x.returnDate.isNone = true := by
            simpa using hcond
          refine ⟨hdue,
            by simpa [Option.isNone_iff_eq_none] using hopen, ?_, ?_⟩
          · exact ⟨b, List.mem_of_find?_eq_some hb, by simpa using List.find?_some hb⟩
          · exact ⟨br, List.mem_of_find?_eq_some hbr, by simpa using List.find?_some hbr⟩
        · rw [if_neg hcond] at hfx
          exact absurd hfx (by simp)
  · rintro ⟨hdue, hopen, ⟨b, hbmem, hbid⟩, ⟨br, hbrmem, hbrid⟩⟩
    cases hb : db.books.find? (fun x => x.id == l.bookId) with
    | none => exact absurd hbid (by simpa using List.find?_eq_none.mp hb b hbmem)
    | some b2 =>
      cases hbr : db.borrowers.find? (fun x => x.id == l.borrowerId) with
      | none => exact absurd hbrid (by simpa using List.find?_eq_none.mp hbr br hbrmem)
      | some br2 =>
        refine ⟨(l.id, b2.title, br2.name, l.dueDate), ?_, rfl⟩
        apply List.mem_filterMap.mpr
        refine ⟨l, hl, ?_⟩
        rw [hb, hbr]
        simp [hdue, hopen]

/-- C5 amended witness: a store with one book, one borrower, one open loan due
on day 14: the loan is reported overdue as of day 20 and the characterization's
right-hand side holds there. -/
theorem get_overdue_loans_spec_witness :
    (∃ e ∈ get_overdue_loans (runOps
        [Op.addBook 0 "T" "A" none none none,
         Op.registerBorrower 0 "N" none none, Op.loanBook 0 1 1 14]) 20,
      e.1 = 1) := by
  apply (get_overdue_loans_spec (runOps
        [Op.addBook 0 "T" "A" none none none,
         Op.registerBorrower 0 "N" none none, Op.loanBook 0 1 1 14]) 20
      { id := 1, bookId := 1, borrowerId := 1, loanDate := 0, dueDate := 14,
        returnDate := none }
      (by decide) (by decide)).mpr
  refine ⟨by decide, by decide, by decide, by decide⟩

/-! ## The `LIKE` matcher on wildcard-free queries -/

theorem likeScan_iff (f : List Char → Bool) (s : List Char) :
    likeScan f s = true ↔ ∃ s1 s2, s = s1 ++ s2 ∧ f s2 = true := by
  induction s with
  | nil =>
    constructor
    · intro h
      exact ⟨[], [], rfl, by simpa [likeScan] using h⟩
    · rintro ⟨s1, s2, hs, h⟩
      obtain ⟨rfl, rfl⟩ := List.append_eq_nil.mp hs.symm
      simpa [likeScan] using h
  | cons c s ih =>
    constructor
    · intro h
      have h2 : f (c :: s) = true ∨ likeScan f s = true := by
        simpa [likeScan] using h
      rcases h2 with h2 | h2
      · exact ⟨[], c :: s, rfl, h2⟩
      · obtain ⟨s1, s2, rfl, hm⟩ := ih.mp h2
        exact ⟨c :: s1, s2, rfl, hm⟩
    · rintro ⟨s1, s2, hs, hm⟩
      cases s1 with
      | nil =>
        have hs2 : s2 = c :: s := by simpa using hs.symm
        subst hs2
        simp [likeScan, hm]
      | cons d s1 =>
        obtain ⟨rfl, hs2⟩ : d = c ∧ s = s1 ++ s2 := by
          have := hs
          simp only [List.cons_append, List.cons.injEq] at this
          exact ⟨this.1.symm, this.2⟩
        have h3 : likeScan f s = true := ih.mpr ⟨s1, s2, hs2, hm⟩
        simp [likeScan, h3]

theorem likeMatch_pct_iff (p : List Char) (s : List Char) :
    likeMatch ('%' :: p) s = true ↔
      ∃ s1 s2, s = s1 ++ s2 ∧ likeMatch p s2 = true := by
  rw [show likeMatch ('%' :: p) s = likeScan (likeMatch p) s from by
    simp [likeMatch]]
  exact likeScan_iff (likeMatch p) s

theorem likeMatch_pct_single (s : List Char) : likeMatch ['%'] s = true := by
  rcases (likeScan_iff (likeMatch []) s).mpr ⟨s, [], by simp, by simp [likeMatch]⟩
    with h
  simpa [likeMatch] using h

theorem likeMatch_lit_iff :
    ∀ q : List Char, (∀ c ∈ q, c ≠ '%' ∧ c ≠ '_') → ∀ p s : List Char,
      (likeMatch (q ++ p) s = true ↔
        ∃ s1 s2, s = s1 ++ s2 ∧ s1.map Char.toLower = q.map Char.toLower ∧
          likeMatch p s2 = true) := by
  intro q
  induction q with
  | nil =>
    intro _ p s
    constructor
    · intro h
      exact ⟨[], s, rfl, rfl, by simpa using h⟩
    · rintro ⟨s1, s2, rfl, hmap, hm⟩
      have hs1 : s1 = [] := List.map_eq_nil_iff.mp hmap
      subst hs1
      simpa using hm
  | cons a q ih =>
    intro hq p s
    have ha := hq a (List.mem_cons_self a q)
    have hq2 : ∀ c ∈ q, c ≠ '%' ∧ c ≠ '_' :=
      fun c hc => hq c (List.mem_cons_of_mem a hc)
    cases s with
    | nil =>
      constructor
      · intro h
        rw [show likeMatch ((a :: q) ++ p) [] = false from by
          simp [likeMatch, ha.1]] at h
        exact absurd h (by simp)
      · rintro ⟨s1, s2, hs, hmap, hm⟩
        obtain ⟨rfl, rfl⟩ := List.append_eq_nil.mp hs.symm
        simp at hmap
    | cons c s =>
      have hL : likeMatch ((a :: q) ++ p) (c :: s)
          = (decide (a.toLower = c.toLower) && likeMatch (q ++ p) s) := by
        simp [likeMatch, ha.1, ha.2]
      rw [hL]
      constructor
      · intro h
        have h1 : a.toLower = c.toLower ∧ likeMatch (q ++ p) s = true := by
          simpa using h
        obtain ⟨s1, s2, rfl, hmap, hm⟩ := (ih hq2 p s).mp h1.2
        exact ⟨c :: s1, s2, rfl, by simp [hmap, h1.1], hm⟩
      · rintro ⟨s1, s2, hs, hmap, hm⟩
        cases s1 with
        | nil => simp at hmap
        | cons d s1 =>
          obtain ⟨rfl, hs2⟩ : d = c ∧ s = s1 ++ s2 := by
            have := hs
            simp only [List.cons_append, List.cons.injEq] at this
            exact ⟨this.1.symm, this.2⟩
          have hmap2 : d.toLower = a.toLower ∧
              s1.map Char.toLower = q.map Char.toLower := by
            simpa using hmap
          simp only [Bool.and_eq_true, decide_eq_true_eq]
          exact ⟨hmap2.1.symm, (ih hq2 p s).mpr ⟨s1, s2, hs2, hmap2.2, hm⟩⟩

theorem likeMatch_infix (q : List Char) (hq : ∀ c ∈ q, c ≠ '%' ∧ c ≠ '_')
    (s : List Char) :
    likeMatch ('%' :: (q ++ ['%'])) s = true ↔
      (q.map Char.toLower) <:+: (s.map Char.toLower) := by
  rw [likeMatch_pct_iff]
  constructor
  · rintro ⟨u, t, rfl, ht⟩
    obtain ⟨t1, t2, rfl, hmap, _⟩ := (likeMatch_lit_iff q hq ['%'] t).mp ht
    exact ⟨u.map Char.toLower, t2.map Char.toLower, by simp [hmap]⟩
  · rintro ⟨u, v, huv⟩
    obtain ⟨s12, s3, rfl, hs12, hs3⟩ := List.map_eq_append_iff.mp huv.symm
    obtain ⟨s1, s2, rfl, hs1, hs2⟩ := List.map_eq_append_iff.mp hs12
    refine ⟨s1, s2 ++ s3, by simp, ?_⟩
    exact (likeMatch_lit_iff q hq ['%'] (s2 ++ s3)).mpr
      ⟨s2, s3, rfl, hs2, likeMatch_pct_single s3⟩

/-! ## C9: search -/

/-- C9 counterexample: sqlite `LIKE` treats `_` in the query as a one-character
wildcard, so searching titles for the query `"_"` returns the book titled
`"x"` even though `"_"` is not a (case-insensitive) substring of `"x"`:
the result is not the set of substring matches. -/
theorem search_books_wildcard_counterexample :
    search_books (add_book createTables 0 "x" "A" none none none).2 "_" "title"
        = (add_book createTables 0 "x" "A" none none none).2.books ∧
    (add_book createTables 0 "x" "A" none none none).2.books ≠ [] ∧
    (∀ b ∈ (add_book createTables 0 "x" "A" none none none).2.books,
      specMatches "_" "title" b = false) := by
  refine ⟨by decide, by decide, by decide⟩

/-- C9 amended: for a query containing no `LIKE` metacharacter (`%` or `_`),
`search_books` returns exactly the books whose chosen field contains the query
as an ASCII-case-insensitive substring (an absent optional field containing
nothing), and any unknown field selector yields the empty list, not an error. -/
theorem search_books_substring_spec (db : LibraryDatabase) (query f : String)
    (hq : ∀ c ∈ query.data, c ≠ '%' ∧ c ≠ '_') :
    search_books db query f = db.books.filter (specMatches query f) := by
  have hpat : ("%" ++ query ++ "%").data = '%' :: (query.data ++ ['%']) := by
    simp [String.data_append]
  have hlike : ∀ s : String,
      likeMatch ("%" ++ query ++ "%").data s.data = decide (containsCI query s) := by
    intro s
    rw [hpat, Bool.eq_iff_iff, decide_eq_true_eq]
    exact likeMatch_infix query.data hq s.data
  unfold search_books
  by_cases h1 : f = "title"
  · rw [if_pos h1]
    apply List.filter_congr
    intro b _
    rw [specMatches, if_pos h1]
    exact hlike b.title
  rw [if_neg h1]
  by_cases h2 : f = "author"
  · rw [if_pos h2]
    apply List.filter_congr
    intro b _
    rw [specMatches, if_neg h1, if_pos h2]
    exact hlike b.author
  rw [if_neg h2]
  by_cases h3 : f = "isbn"
  · rw [if_pos h3]
    apply List.filter_congr
    intro b _
    rw [specMatches, if_neg h1, if_neg h2, if_pos h3]
    cases b.isbn with
    | none => rfl
    | some s => exact hlike s
  rw [if_neg h3]
  by_cases h4 : f = "genre"
  · rw [if_pos h4]
    apply List.filter_congr
    intro b _
    rw [specMatches, if_neg h1, if_neg h2, if_neg h3, if_pos h4]
    cases b.genre with
    | none => rfl
    | some s => exact hlike s
  rw [if_neg h4]
  have : ∀ b ∈ db.books, specMatches query f b = false := by
    intro b _
    rw [specMatches, if_neg h1, if_neg h2, if_neg h3, if_neg h4]
  rw [List.filter_congr this]
  simp

/-- C9 amended witness: searching for `"ab"` in a store whose one book is
titled `"drAB"` returns exactly the case-insensitive substring matches. -/
theorem search_books_substring_spec_witness :
    search_books (add_book createTables 0 "drAB" "A" none none none).2 "ab" "title"
      = (add_book createTables 0 "drAB" "A" none none none).2.books.filter
          (specMatches "ab" "title") :=
  search_books_substring_spec (add_book createTables 0 "drAB" "A" none none none).2
    "ab" "title" (by decide)

/-! ## C1: preservation of the status invariant on safe sequences -/

theorem update_status_id (bid : Nat) (st : String) (x : Book) :
    (if x.id == bid then { x with status := st } else x).id = x.id := by
  by_cases h : x.id = bid <;> simp [h]

theorem update_return_id (lid now : Nat) (x : Loan) :
    (if x.id == lid then { x with returnDate := some now } else x).id = x.id := by
  by_cases h : x.id = lid <;> simp [h]

theorem update_return_bookId (lid now : Nat) (x : Loan) :
    (if x.id == lid then { x with returnDate := some now } else x).bookId
      = x.bookId := by
  by_cases h : x.id = lid <;> simp [h]

theorem storeInv_createTables : StoreInv createTables := by
  refine ⟨?_, ?_, ?_, ?_, ?_, ?_, ?_⟩ <;>
    intro b hb <;> simp [createTables, bookStatusInv] at hb ⊢

theorem storeInv_register_borrower (db : LibraryDatabase) (hinv : StoreInv db)
    (now : Nat) (n : String) (e p : Option String) :
    StoreInv (register_borrower db now n e p).2 := by
  unfold register_borrower
  by_cases hc : emailTaken db e
  · simpa [hc] using hinv
  · rw [if_neg (by simp [hc])]
    exact ⟨hinv.statusIff, hinv.oneOpen, hinv.bookIds, hinv.loanIds,
      hinv.loansRef, hinv.bookIdLt, hinv.loanIdLt⟩

theorem storeInv_add_book (db : LibraryDatabase) (hinv : StoreInv db)
    (now : Nat) (t a : String) (i : Option String) (y : Option Int)
    (g : Option String) :
    StoreInv (add_book db now t a i y g).2 := by
  unfold add_book
  by_cases hc : isbnTaken db i
  · simpa [hc] using hinv
  · rw [if_neg (by simp [hc])]
    refine ⟨?_, hinv.oneOpen, ?_, hinv.loanIds, ?_, ?_, hinv.loanIdLt⟩
    · -- statusIff
      intro b hb
      rcases List.mem_append.mp hb with hb | hb
      · exact hinv.statusIff b hb
      · rw [List.mem_singleton] at hb
        subst hb
        constructor
        · intro hst
          have hst2 : ("available" : String) = "loaned" := hst
          exact absurd hst2 (by decide)
        · rintro ⟨l, hl, hlb, -⟩
          obtain ⟨b2, hb2, hb2id⟩ := hinv.loansRef l hl
          have hlt := hinv.bookIdLt b2 hb2
          rw [hb2id] at hlt
          have hlb2 : l.bookId = db.nextBookId := hlb
          omega
    · -- bookIds
      intro b1 hb1 b2 hb2 hid
      rcases List.mem_append.mp hb1 with hb1 | hb1 <;>
        rcases List.mem_append.mp hb2 with hb2 | hb2
      · exact hinv.bookIds b1 hb1 b2 hb2 hid
      · rw [List.mem_singleton] at hb2
        subst hb2
        have hlt := hinv.bookIdLt b1 hb1
        have hid2 : b1.id = db.nextBookId := hid
        exact absurd hid2 (Nat.ne_of_lt hlt)
      · rw [List.mem_singleton] at hb1
        subst hb1
        have hlt := hinv.bookIdLt b2 hb2
        have hid2 : db.nextBookId = b2.id := hid
        exact absurd hid2.symm (Nat.ne_of_lt hlt)
      · rw [List.mem_singleton] at hb1 hb2
        rw [hb1, hb2]
    · -- loansRef
      intro l hl
      obtain ⟨b, hbm, hbid⟩ := hinv.loansRef l hl
      exact ⟨b, List.mem_append.mpr (Or.inl hbm), hbid⟩
    · -- bookIdLt
      intro b hb
      show b.id < db.nextBookId + 1
      rcases List.mem_append.mp hb with hb | hb
      · have := hinv.bookIdLt b hb
        omega
      · rw [List.mem_singleton] at hb
        subst hb
        exact Nat.lt_succ_self db.nextBookId

theorem storeInv_loan_book (db : LibraryDatabase) (hinv : StoreInv db)
    (now bid brid d : Nat) : StoreInv (loan_book db now bid brid d).2 := by
  cases hfind : db.books.find? (fun b => b.id == bid) with
  | none => simp only [loan_book, hfind]; exact hinv
  | some b0 =>
    have hb0mem := List.mem_of_find?_eq_some hfind
    have hb0id : b0.id = bid := by simpa using List.find?_some hfind
    simp only [loan_book, hfind]
    by_cases hst : b0.status = "available"
    case neg => rw [if_pos hst]; exact hinv
    case pos =>
      rw [if_neg (fun h => h hst)]
      have hno : ∀ l ∈ db.loans, l.bookId = bid → l.returnDate ≠ none := by
        intro l hl hlb hlr
        have hld := (hinv.statusIff b0 hb0mem).mpr ⟨l, hl, by rw [hlb, hb0id], hlr⟩
        rw [hst] at hld
        exact absurd hld (by decide)
      refine ⟨?_, ?_, ?_, ?_, ?_, ?_, ?_⟩
      · -- statusIff
        intro b hb
        obtain ⟨x, hx, rfl⟩ := List.mem_map.mp hb
        by_cases hxid : x.id = bid
        · rw [if_pos (by simp [hxid])]
          constructor
          · intro _
            refine ⟨{ id := db.nextLoanId, bookId := bid, borrowerId := brid,
                      loanDate := now, dueDate := now + d, returnDate := none },
              List.mem_append.mpr (Or.inr (List.mem_singleton.mpr rfl)), ?_, rfl⟩
            exact hxid.symm
          · intro _
            rfl
        · rw [if_neg (by simp [hxid])]
          have hold := hinv.statusIff x hx
          constructor
          · intro h
            obtain ⟨l, hl, hlb, hlr⟩ := hold.mp h
            exact ⟨l, List.mem_append.mpr (Or.inl hl), hlb, hlr⟩
          · rintro ⟨l, hl, hlb, hlr⟩
            rcases List.mem_append.mp hl with hl | hl
            · exact hold.mpr ⟨l, hl, hlb, hlr⟩
            · rw [List.mem_singleton] at hl
              subst hl
              have hlb2 : bid = x.id := hlb
              exact absurd hlb2.symm hxid
      · -- oneOpen
        intro l1 hl1 l2 hl2 h1 h2 hbk
        rcases List.mem_append.mp hl1 with hl1 | hl1 <;>
          rcases List.mem_append.mp hl2 with hl2 | hl2
        · exact hinv.oneOpen l1 hl1 l2 hl2 h1 h2 hbk
        · rw [List.mem_singleton] at hl2
          subst hl2
          have hb1 : l1.bookId = bid := hbk
          exact absurd h1 (hno l1 hl1 hb1)
        · rw [List.mem_singleton] at hl1
          subst hl1
          have hb2 : bid = l2.bookId := hbk
          exact absurd h2 (hno l2 hl2 hb2.symm)
        · rw [List.mem_singleton] at hl1 hl2
          rw [hl1, hl2]
      · -- bookIds
        intro b1 hb1 b2 hb2 hid
        obtain ⟨x1, hx1, rfl⟩ := List.mem_map.mp hb1
        obtain ⟨x2, hx2, rfl⟩ := List.mem_map.mp hb2
        simp only [update_status_id] at hid
        rw [hinv.bookIds x1 hx1 x2 hx2 hid]
      · -- loanIds
        intro l1 hl1 l2 hl2 hid
        rcases List.mem_append.mp hl1 with hl1 | hl1 <;>
          rcases List.mem_append.mp hl2 with hl2 | hl2
        · exact hinv.loanIds l1 hl1 l2 hl2 hid
        · rw [List.mem_singleton] at hl2
          subst hl2
          have hlt := hinv.loanIdLt l1 hl1
          have hid2 : l1.id = db.nextLoanId := hid
          exact absurd hid2 (Nat.ne_of_lt hlt)
        · rw [List.mem_singleton] at hl1
          subst hl1
          have hlt := hinv.loanIdLt l2 hl2
          have hid2 : db.nextLoanId = l2.id := hid
          exact absurd hid2.symm (Nat.ne_of_lt hlt)
        · rw [List.mem_singleton] at hl1 hl2
          rw [hl1, hl2]
      · -- loansRef
        intro l hl
        rcases List.mem_append.mp hl with hl | hl
        · obtain ⟨b, hbm, hbid⟩ := hinv.loansRef l hl
          refine ⟨if b.id == bid then { b with status := "loaned" } else b,
            List.mem_map.mpr ⟨b, hbm, rfl⟩, ?_⟩
          rw [update_status_id, hbid]
        · rw [List.mem_singleton] at hl
          subst hl
          refine ⟨if b0.id == bid then { b0 with status := "loaned" } else b0,
            List.mem_map.mpr ⟨b0, hb0mem, rfl⟩, ?_⟩
          have : (if b0.id == bid then { b0 with status := "loaned" } else b0).id
              = bid := by rw [update_status_id, hb0id]
          exact this
      · -- bookIdLt
        intro b hb
        obtain ⟨x, hx, rfl⟩ := List.mem_map.mp hb
        have hlt := hinv.bookIdLt x hx
        simp only [update_status_id]
        exact hlt
      · -- loanIdLt
        intro l hl
        show l.id < db.nextLoanId + 1
        rcases List.mem_append.mp hl with hl | hl
        · have := hinv.loanIdLt l hl
          omega
        · rw [List.mem_singleton] at hl
          subst hl
          exact Nat.lt_succ_self db.nextLoanId

theorem storeInv_return_book (db : LibraryDatabase) (hinv : StoreInv db)
    (now lid : Nat)
    (hok : ∀ l ∈ db.loans, l.id = lid → l.returnDate = none) :
    StoreInv (return_book db now lid).2 := by
  cases hfind : db.loans.find? (fun l => l.id == lid) with
  | none => simp only [return_book, hfind]; exact hinv
  | some l0 =>
    have hl0mem := List.mem_of_find?_eq_some hfind
    have hl0id : l0.id = lid := by simpa using List.find?_some hfind
    have hl0open : l0.returnDate = none := hok l0 hl0mem hl0id
    simp only [return_book, hfind]
    have hopen2 : ∀ y,
        y ∈ db.loans.map (fun x =>
          if x.id == lid then { x with returnDate := some now } else x) →
        y.returnDate = none → y ∈ db.loans ∧ y.id ≠ lid := by
      intro y hy hyo
      obtain ⟨x, hx, rfl⟩ := List.mem_map.mp hy
      by_cases hxid : x.id = lid
      · simp [hxid] at hyo
      · have hgx : (if x.id == lid then { x with returnDate := some now } else x)
            = x := if_neg (by simp [hxid])
        rw [hgx]
        exact ⟨hx, hxid⟩
    refine ⟨?_, ?_, ?_, ?_, ?_, ?_, ?_⟩
    · -- statusIff
      intro b hb
      obtain ⟨x, hx, rfl⟩ := List.mem_map.mp hb
      by_cases hxb : x.id = l0.bookId
      · rw [if_pos (by simp [hxb])]
        constructor
        · intro hst
          have hst2 : ("available" : String) = "loaned" := hst
          exact absurd hst2 (by decide)
        · rintro ⟨y, hy, hyb, hyo⟩
          obtain ⟨hymem, hyne⟩ := hopen2 y hy hyo
          have hyb2 : y.bookId = x.id := hyb
          have hyl0 : y = l0 :=
            hinv.oneOpen y hymem l0 hl0mem hyo hl0open (by rw [hyb2, hxb])
          rw [hyl0] at hyne
          exact absurd hl0id hyne
      · have hhx : (if x.id == l0.bookId then { x with status := "available" }
            else x) = x := if_neg (by simp [hxb])
        rw [hhx]
        have hold := hinv.statusIff x hx
        constructor
        · intro hst
          obtain ⟨y, hy, hyb, hyo⟩ := hold.mp hst
          have hyne : y.id ≠ lid := by
            intro heq
            have hyl0 : y = l0 := hinv.loanIds y hy l0 hl0mem (by rw [heq, hl0id])
            rw [hyl0] at hyb
            exact hxb hyb.symm
          refine ⟨if y.id == lid then { y with returnDate := some now } else y,
            List.mem_map.mpr ⟨y, hy, rfl⟩, ?_, ?_⟩
          · rw [if_neg (by simp [hyne])]
            exact hyb
          · rw [if_neg (by simp [hyne])]
            exact hyo
        · rintro ⟨y, hy, hyb, hyo⟩
          obtain ⟨hymem, -⟩ := hopen2 y hy hyo
          exact hold.mpr ⟨y, hymem, hyb, hyo⟩
    · -- oneOpen
      intro l1 hl1 l2 hl2 h1 h2 hbk
      obtain ⟨hm1, -⟩ := hopen2 l1 hl1 h1
      obtain ⟨hm2, -⟩ := hopen2 l2 hl2 h2
      exact hinv.oneOpen l1 hm1 l2 hm2 h1 h2 hbk
    · -- bookIds
      intro b1 hb1 b2 hb2 hid
      obtain ⟨x1, hx1, rfl⟩ := List.mem_map.mp hb1
      obtain ⟨x2, hx2, rfl⟩ := List.mem_map.mp hb2
      simp only [update_status_id] at hid
      rw [hinv.bookIds x1 hx1 x2 hx2 hid]
    · -- loanIds
      intro l1 hl1 l2 hl2 hid
      obtain ⟨x1, hx1, rfl⟩ := List.mem_map.mp hl1
      obtain ⟨x2, hx2, rfl⟩ := List.mem_map.mp hl2
      simp only [update_return_id] at hid
      rw [hinv.loanIds x1 hx1 x2 hx2 hid]
    · -- loansRef
      intro l hl
      obtain ⟨x, hx, rfl⟩ := List.mem_map.mp hl
      obtain ⟨b, hbm, hbid⟩ := hinv.loansRef x hx
      refine ⟨if b.id == l0.bookId then { b with status := "available" } else b,
        List.mem_map.mpr ⟨b, hbm, rfl⟩, ?_⟩
      rw [update_status_id, update_return_bookId, hbid]
    · -- bookIdLt
      intro b hb
      obtain ⟨x, hx, rfl⟩ := List.mem_map.mp hb
      have := hinv.bookIdLt x hx
      simp only [update_status_id]
      exact this
    · -- loanIdLt
      intro l hl
      obtain ⟨x, hx, rfl⟩ := List.mem_map.mp hl
      have := hinv.loanIdLt x hx
      simp only [update_return_id]
      exact this

theorem storeInv_applyOp (db : LibraryDatabase) (op : Op)
    (hinv : StoreInv db) (hok : okOp db op) : StoreInv (applyOp db op) := by
  cases op with
  | addBook now t a i y g => exact storeInv_add_book db hinv now t a i y g
  | registerBorrower now n e p =>
    exact storeInv_register_borrower db hinv now n e p
  | loanBook now bid brid d => exact storeInv_loan_book db hinv now bid brid d
  | returnBook now l => exact storeInv_return_book db hinv now l hok

theorem storeInv_foldl : ∀ (ops : List Op) (db : LibraryDatabase),
    StoreInv db → goodFrom db ops → StoreInv (ops.foldl applyOp db)
  | [], _, hinv, _ => hinv
  | op :: ops, db, hinv, hgood =>
    storeInv_foldl ops (applyOp db op)
      (storeInv_applyOp db op hinv hgood.1) hgood.2

/-- C1 amended: after every sequence of store operations in which `returnBook`
is only ever applied to a still-open loan, every book's status is `'loaned'`
exactly when an open (return-date-absent) loan references it.  (Without that
restriction the invariant fails, see the counterexample: the code lets a
second return of the same loan free a book that was re-loaned meanwhile.) -/
theorem bookStatusInv_of_goodRun (ops : List Op)
    (h : goodFrom createTables ops) : bookStatusInv (runOps ops) :=
  (storeInv_foldl ops createTables storeInv_createTables h).statusIff

/-- C1 amended witness: the add/loan/return scenario is a safe sequence and
the invariant holds after it. -/
theorem bookStatusInv_of_goodRun_witness :
    goodFrom createTables [Op.addBook 0 "T" "A" none none none,
      Op.loanBook 0 1 1 14, Op.returnBook 1 1] ∧
    bookStatusInv (runOps [Op.addBook 0 "T" "A" none none none,
      Op.loanBook 0 1 1 14, Op.returnBook 1 1]) :=
  ⟨by decide, bookStatusInv_of_goodRun
    [Op.addBook 0 "T" "A" none none none,
     Op.loanBook 0 1 1 14, Op.returnBook 1 1] (by decide)⟩
